import Mathlib

/-!
# Verification of the request-library decorator core

Shallow embedding of `src/request-core/index.js` (transport registry,
global configuration merge, retry / bounded-concurrency / cache /
idempotent decorators) and proofs of the specification claims about it.

JavaScript semantics are modelled as follows: machine numbers that the
code only compares and subtracts (timestamps, durations, timeouts) are
`Int`; JS object spread over a fixed field set is field-wise `Option.getD`;
JS `Map` / header objects are association lists read through a first-match
lookup; promise rejection is `Except`; in-place mutation of a config object
is explicit threading of the updated record.
-/

/-- A JSON-like value, the shape of `params` and request bodies that
`JSON.stringify` is applied to in the idempotent key function. -/
inductive Json where
  | null
  | bool (b : Bool)
  | num (n : Int)
  | str (s : String)
  | arr (elems : List Json)
  | obj (fields : List (String × Json))

/-- JS truthiness of a JSON value (`if (params)` / `if (data)` guards). -/
def jsTruthy : Json → Bool
  | .null => false
  | .bool b => b
  | .num n => n != 0
  | .str s => s != ""
  | .arr _ => true
  | .obj _ => true

mutual

/-- `JSON.stringify` on the modelled JSON values (string escaping is not
modelled; the claims only need stringify to be a deterministic function). -/
def jsonStringify : Json → String
  | .null => "null"
  | .bool b => if b then "true" else "false"
  | .num n => toString n
  | .str s => "\"" ++ s ++ "\""
  | .arr elems => "[" ++ jsonStringifyList elems ++ "]"
  | .obj fields => "\x7b" ++ jsonStringifyFields fields ++ "\x7d"

def jsonStringifyList : List Json → String
  | [] => ""
  | [v] => jsonStringify v
  | v :: rest => jsonStringify v ++ "," ++ jsonStringifyList rest

def jsonStringifyFields : List (String × Json) → String
  | [] => ""
  | [(k, v)] => "\"" ++ k ++ "\":" ++ jsonStringify v
  | (k, v) :: rest => "\"" ++ k ++ "\":" ++ jsonStringify v ++ "," ++ jsonStringifyFields rest

end

/-- Header maps (`headers` objects): association lists, read through
first-match lookup. -/
abbrev Headers := List (String × String)

/-- Lookup of a header key, first match wins. -/
def hLookup (h : Headers) (k : String) : Option String :=
  (h.find? (fun p => p.1 == k)).map (·.2)

/-- JS object spread `{...a, ...b}` restricted to its lookup behaviour:
keys of `b` override keys of `a`.  Entries of `b` are placed first so that
the first-match lookup realises exactly the spread's key resolution. -/
def mergeHeaders (a b : Headers) : Headers :=
  b ++ a

/-- `RequestConfig` (§3 of the spec): the per-call request description
built by the verb helpers in `request-core/index.js`.  `timeout = 0`
models both an absent and an explicitly zero timeout, which the code's
truthiness test `!config.timeout` cannot distinguish. -/
structure RequestConfig where
  method : String
  url : String
  headers : Headers
  params : Option Json
  data : Option Json
  timeout : Int

/-- The module-level `globalConfig` object of `request-core/index.js`. -/
structure GlobalConfig where
  baseURL : String
  headers : Headers
  timeout : Int

/-- The initial value of `globalConfig` (lines 19–23 of the source). -/
def initialGlobalConfig : GlobalConfig :=
  { baseURL := "", headers := [], timeout := 0 }

/-- A partial configuration passed to `setGlobalConfig`: each field is
present (`some`) or absent (`none`), matching which keys the JS object
literal carries. -/
structure PartialConfig where
  baseURL : Option String
  headers : Option Headers
  timeout : Option Int

/-- `setGlobalConfig(config)` (source lines 32–37):
`globalConfig = {...globalConfig, ...config}` — a single-level spread, so
each field present in the partial replaces the stored field wholesale. -/
def setGlobalConfig (g : GlobalConfig) (p : PartialConfig) : GlobalConfig :=
  { baseURL := p.baseURL.getD g.baseURL
    headers := p.headers.getD g.headers
    timeout := p.timeout.getD g.timeout }

/-- JS `String.prototype.startsWith(prefixString)` at the character level
(JS strings are sequences of code units; the byte-position machinery of
Lean's own `String.startsWith` is irrelevant to the JS semantics). -/
def jsStartsWith (s pre : String) : Bool :=
  pre.data.isPrefixOf s.data

/-- JS `String.prototype.endsWith(suffixString)` at the character level. -/
def jsEndsWith (s post : String) : Bool :=
  post.data.isSuffixOf s.data

/-- `applyGlobalConfig(config)` (source lines 52–75).  The JS function
mutates and returns `config`; here the updated record is returned and the
caller threads it.  URL joining: when `globalConfig.baseURL` and
`config.url` are both truthy, the base is given a trailing `/` if it lacks
one, one leading `/` is stripped from the url, and the two are
concatenated — with no test of whether `url` already starts with the
base.  Headers: `{...globalConfig.headers, ...config.headers}`.  Timeout:
filled from the global value only when the global one is truthy and the
per-call one is falsy. -/
def applyGlobalConfig (g : GlobalConfig) (c : RequestConfig) : RequestConfig :=
  let c1 :=
    if g.baseURL != "" && c.url != "" then
      let base := if jsEndsWith g.baseURL "/" then g.baseURL else g.baseURL ++ "/"
      let u := if jsStartsWith c.url "/" then c.url.drop 1 else c.url
      { c with url := base ++ u }
    else c
  let c2 := { c1 with headers := mergeHeaders g.headers c1.headers }
  if g.timeout != 0 && c2.timeout == 0 then { c2 with timeout := g.timeout } else c2

/-- A response returned by a transport adapter; only the payload and the
status matter to the claims. -/
structure Resp where
  data : Json
  status : Int

/-- A rejection reason (the `message` of a JS `Error`). -/
abbrev Err := String

/-- The process-wide state read by each dispatch: the currently injected
transport adapter (as the outcome it produces for a given config) together
with the current `globalConfig`.  The proxy object built by
`useRequestor()` reads the module-level `requestorInstance` and
`globalConfig` inside its `request` closure, so every individual dispatch
sees the state current at that moment. -/
structure Env where
  transport : RequestConfig → Except Err Resp
  gconfig : GlobalConfig

/-- One dispatch through the `useRequestor()` proxy in environment `e`:
`applyGlobalConfig` is applied (mutating the config object, modelled by
returning the updated record) and the current transport is invoked on the
updated config. -/
def proxyDispatch (e : Env) (c : RequestConfig) : RequestConfig × Except Err Resp :=
  let c2 := applyGlobalConfig e.gconfig c
  (c2, e.transport c2)

/-- How a call through the retry decorator ends: `ok` (the loop returned a
response), `err` (the last error was re-thrown), or `undef` (the `while`
body never ran and the async function resolved with `undefined`). -/
inductive RetryOutcome where
  | ok (r : Resp)
  | err (e : Err)
  | undef

/-- The observable behaviour of one `makeRequest` call of the retry
decorator: the configs dispatched attempt by attempt, the backoff waits
(ms) inserted before each retry, and the final outcome. -/
structure RetryTrace where
  attempts : List RequestConfig
  waits : List Int
  outcome : RetryOutcome

/-- The retry loop of `createRetryRequestor` (source lines 156–169), with
`count` the current value of the loop counter.  Because the same config
object is reused across the loop, each attempt dispatches the config as
mutated by the previous attempt's `applyGlobalConfig`.  `env i` is the
process-wide state at the moment of attempt `i`; the proxy re-reads it at
each dispatch.  `maxCount` is an `Int` so that non-positive arguments
behave as in JS (`while (count < maxCount)` never runs). -/
def retryLoop (env : Nat → Env) (maxCount : Int) (count : Nat) (c : RequestConfig) :
    RetryTrace :=
  if _h : (count : Int) < maxCount then
    let step := proxyDispatch (env count) c
    match step.2 with
    | .ok r => ⟨[step.1], [], .ok r⟩
    | .error e =>
      if ((count : Int) + 1) ≥ maxCount then ⟨[step.1], [], .err e⟩
      else
        let rest := retryLoop env maxCount (count + 1) step.1
        ⟨step.1 :: rest.attempts, 1000 * ((count : Int) + 1) :: rest.waits, rest.outcome⟩
  else ⟨[], [], .undef⟩
termination_by (maxCount - count).toNat
decreasing_by
  simp only [not_le] at *
  omega

/-- `makeRequest(config)` of `createRetryRequestor(maxCount)`: the loop
starts with `count = 0` on the caller's config. -/
def retryMakeRequest (env : Nat → Env) (maxCount : Int) (c : RequestConfig) : RetryTrace :=
  retryLoop env maxCount 0 c

/-! ## Bounded-concurrency decorator (`createParallelRequestor`)

The decorator owns a FIFO `queue` of pending calls and a `runningCount`.
Calls are identified here by a `Nat` id in place of the JS
`{config, resolve, reject}` triple; the config plays no role in queue
movement.  The event-driven model below is faithful to the single-threaded
JS execution: the only external events are a new call (`enq`) and the
settlement of an in-flight dispatch (`settle`), and `processQueue` — which
admits at most one pending call per invocation — runs synchronously inside
each event, exactly where the source calls it. -/

/-- The mutable state of one `createParallelRequestor` instance, plus
history fields (`enqueued`, `admitted`, `settled`, `rejected`) recording
the observable behaviour. -/
structure PState where
  /-- pending calls, head = oldest (`queue` in the source) -/
  queue : List Nat
  /-- `runningCount` in the source -/
  running : Nat
  /-- calls dispatched to the transport and not yet settled -/
  inFlight : List Nat
  /-- every call ever passed to `makeRequest`, in order -/
  enqueued : List Nat
  /-- every call ever dequeued and dispatched, in order -/
  admitted : List Nat
  /-- settlements of callers' promises via the dispatch chain:
  `(id, true)` resolved, `(id, false)` rejected -/
  settled : List (Nat × Bool)
  /-- callers' promises rejected by a synchronous `useRequestor()` throw -/
  rejected : List Nat

/-- The state of a freshly constructed decorator. -/
def pInit : PState :=
  { queue := [], running := 0, inFlight := [], enqueued := [],
    admitted := [], settled := [], rejected := [] }

/-- `processQueue()` (source lines 199–217) when a transport is injected:
return unless the queue is nonempty and `runningCount < maxParallelCount`;
otherwise increment the count, shift the head, and dispatch it (the
dispatch is now in flight; its settlement arrives later as an event). -/
def processQueue (maxParallel : Nat) (s : PState) : PState :=
  match s.queue with
  | [] => s
  | t :: rest =>
    if s.running < maxParallel then
      { s with queue := rest, running := s.running + 1,
               inFlight := s.inFlight ++ [t], admitted := s.admitted ++ [t] }
    else s

/-- External events: a new call through the decorator, or the settlement
(success/failure) of an in-flight dispatch. -/
inductive PEvent where
  | enq (t : Nat)
  | settle (t : Nat) (success : Bool)

/-- One event step when a transport is injected.  `enq`: push the call and
run `processQueue` (source lines 191–196).  `settle`: the dispatch chain
`.then(resolve).catch(reject).finally(...)` settles the caller's promise,
decrements `runningCount` and runs `processQueue` (lines 210–216).
A settlement for an id not in flight is ignored. -/
def pStep (maxParallel : Nat) (s : PState) (e : PEvent) : PState :=
  match e with
  | .enq t =>
    processQueue maxParallel
      { s with queue := s.queue ++ [t], enqueued := s.enqueued ++ [t] }
  | .settle t success =>
    if t ∈ s.inFlight then
      processQueue maxParallel
        { s with inFlight := s.inFlight.erase t,
                 settled := s.settled ++ [(t, success)],
                 running := s.running - 1 }
    else s

/-- Run a sequence of events from the fresh state. -/
def pRun (maxParallel : Nat) (es : List PEvent) : PState :=
  es.foldl (pStep maxParallel) pInit

/-- One `makeRequest` call when NO transport has been injected: the call
is pushed, and if `runningCount < maxParallelCount` then `processQueue`
increments the count, shifts the head and `useRequestor()` throws — the
throw escapes the `Promise` executor of the call being made, rejecting
that caller's promise with the not-injected error, and nothing ever
decrements the count (source lines 192–208 with lines 81–84). -/
def pEnqNoInject (maxParallel : Nat) (s : PState) (t : Nat) : PState :=
  let s1 := { s with queue := s.queue ++ [t], enqueued := s.enqueued ++ [t] }
  match s1.queue with
  | [] => s1
  | _h :: rest =>
    if s1.running < maxParallel then
      { s1 with queue := rest, running := s1.running + 1,
                rejected := s1.rejected ++ [t] }
    else s1

/-- A sequence of calls, all made before any transport injection. -/
def pRunNoInject (maxParallel : Nat) (ts : List Nat) : PState :=
  ts.foldl (pEnqNoInject maxParallel) pInit

/-! ## Cache decorator (`createCacheRequestor`) and its idempotent
specialization (`createIdempotentRequest`) -/

/-- A cache entry `{data, timestamp}` as stored by the cache decorator. -/
structure CacheEntry where
  data : Resp
  timestamp : Int

/-- The key–value store behind one cache decorator instance (the JS `Map`
of `createMemoryStore`), read through first-match lookup. -/
abbrev Store := List (String × CacheEntry)

/-- `store.has(key)`. -/
def storeHas (s : Store) (k : String) : Bool :=
  (s.find? (fun p => p.1 == k)).isSome

/-- `store.get(key)`. -/
def storeGet (s : Store) (k : String) : Option CacheEntry :=
  (s.find? (fun p => p.1 == k)).map (·.2)

/-- `store.set(key, value)`: replace the entry under `key` if present,
append otherwise. -/
def storeSet (s : Store) (k : String) (v : CacheEntry) : Store :=
  if s.any (fun p => p.1 == k) then
    s.map (fun p => if p.1 == k then (k, v) else p)
  else s ++ [(k, v)]

/-- The options record accepted by `createCacheRequestor`; each field is
present or absent as in the JS object. -/
structure CacheOptions where
  key : Option (RequestConfig → String)
  duration : Option Int
  isValid : Option (String → RequestConfig → CacheEntry → Bool)
  persist : Option Bool

/-- The default cache key function: `(config) => method-url`
(source line 296). -/
def defaultCacheKey (c : RequestConfig) : String :=
  c.method ++ "-" ++ c.url

/-- The normalized options (source lines 295–300). -/
structure NormalizedCacheOptions where
  key : RequestConfig → String
  duration : Int
  isValid : Option (String → RequestConfig → CacheEntry → Bool)
  persist : Bool

/-- Option normalization of `createCacheRequestor` (source lines 295–300):
each field uses JS `||`, so an absent field falls to the default, and a
present but falsy `duration` (0) also falls to the 5-minute default. -/
def normalizeCacheOptions (o : CacheOptions) : NormalizedCacheOptions :=
  { key := o.key.getD defaultCacheKey
    duration :=
      match o.duration with
      | some d => if d == 0 then 1000 * 60 * 5 else d
      | none => 1000 * 60 * 5
    isValid := o.isValid
    persist := (o.persist.getD false) }

/-- The observable effect of one cache-decorator `makeRequest` call:
its result, the store afterwards, and whether the transport was
dispatched to. -/
structure CacheCallResult where
  result : Except Err Resp
  store : Store
  dispatched : Bool

/-- `makeRequest(config)` of `createCacheRequestor` (source lines
314–346).  `now` is `Date.now()` at the validity check, `nowStore` is
`Date.now()` at the store write (two separate reads of the clock in the
source).  On a valid hit the entry's data is returned with no dispatch;
otherwise the call dispatches through the `useRequestor()` proxy in the
current environment and, on success, stores `{data, timestamp}` under the
key; a rejected dispatch leaves the store untouched and propagates the
error. -/
def cacheMakeRequest (opts : NormalizedCacheOptions) (env : Env) (now nowStore : Int)
    (store : Store) (c : RequestConfig) : CacheCallResult :=
  let key := opts.key c
  let hit :=
    if storeHas store key then
      match storeGet store key with
      | some entry =>
        let valid :=
          match opts.isValid with
          | some f => f key c entry
          | none => decide (now - entry.timestamp < opts.duration)
        if valid then some entry.data else none
      | none => none
    else none
  match hit with
  | some d => ⟨.ok d, store, false⟩
  | none =>
    let step := proxyDispatch env c
    match step.2 with
    | .ok r => ⟨.ok r, storeSet store key ⟨r, nowStore⟩, true⟩
    | .error e => ⟨.error e, store, true⟩

/-- The default idempotent key function of `createIdempotentRequest`
(source lines 356–369): start from `[method, url]`, push
`JSON.stringify(params)` if `params` is truthy, push
`JSON.stringify(data)` if `data` is truthy, and join with `"-"`. -/
def defaultIdempotentKey (c : RequestConfig) : String :=
  let keyParts := [c.method, c.url]
  let keyParts :=
    match c.params with
    | some p => if jsTruthy p then keyParts ++ [jsonStringify p] else keyParts
    | none => keyParts
  let keyParts :=
    match c.data with
    | some d => if jsTruthy d then keyParts ++ [jsonStringify d] else keyParts
    | none => keyParts
  String.intercalate "-" keyParts

/-- The cache options that `createIdempotentRequest(genKey)` passes to
`createCacheRequestor` (source lines 355–372): the supplied key function
or the default above, a one-hour duration, no custom validity predicate,
no persistence. -/
def idempotentCacheOptions (genKey : Option (RequestConfig → String)) : CacheOptions :=
  { key := some (genKey.getD defaultIdempotentKey)
    duration := some (1000 * 60 * 60)
    isValid := none
    persist := some false }

/-- The URL-joining step of `applyGlobalConfig` (source lines 56–58),
factored out: give the base a trailing `/` unless it already ends with
one, strip one leading `/` from the url, concatenate. -/
def joinBaseURL (b u : String) : String :=
  (if jsEndsWith b "/" then b else b ++ "/") ++
    (if jsStartsWith u "/" then u.drop 1 else u)

/-! # Claim theorems -/

/-- Characters of a dropped string. -/
theorem strData_drop (s : String) (n : Nat) : (s.drop n).data = s.data.drop n := by
  rw [String.drop_eq]

/-- Length of a dropped string. -/
theorem strLength_drop (s : String) (n : Nat) : (s.drop n).length = s.length - n := by
  rw [String.drop_eq]
  show (s.data.drop n).length = s.data.length - n
  exact List.length_drop n s.data

/-- A nonempty string has positive length. -/
theorem strOne_le_length (s : String) (h : s ≠ "") : 1 ≤ s.length := by
  cases s with
  | mk l =>
    cases l with
    | nil => simp at h
    | cons a t => simp [String.length]

/-- The url produced by `applyGlobalConfig`, unconditionally. -/
theorem applyGlobalConfig_url (g : GlobalConfig) (c : RequestConfig) :
    (applyGlobalConfig g c).url =
      if g.baseURL ≠ "" ∧ c.url ≠ "" then joinBaseURL g.baseURL c.url else c.url := by
  simp only [applyGlobalConfig, joinBaseURL, Bool.and_eq_true, bne_iff_ne, ne_eq]
  split
  · split <;> split <;> split <;> rfl
  · split <;> rfl

/-- A string of positive length is nonempty. -/
theorem strNe_empty_of_length (s : String) (h : 1 ≤ s.length) : s ≠ "" := by
  intro he
  rw [he] at h
  simp [String.length] at h

/-- The normalized base (`baseURL` with a trailing slash ensured) is
nonempty when `baseURL` is. -/
theorem joinBase_one_le_length (b : String) (hb : b ≠ "") :
    1 ≤ (if jsEndsWith b "/" then b else b ++ "/").length := by
  split
  · exact strOne_le_length b hb
  · rw [String.length_append]
    have := strOne_le_length b hb
    omega

/-- The normalized base has at least two characters provided `baseURL` is
nonempty and is not the single character `/` (operationally: if it ends
with `/` it has length at least 2). -/
theorem joinBase_two_le_length (b : String) (hb : b ≠ "")
    (hb2 : jsEndsWith b "/" = true → 2 ≤ b.length) :
    2 ≤ (if jsEndsWith b "/" then b else b ++ "/").length := by
  split
  · rename_i h
    exact hb2 h
  · rw [String.length_append]
    have h1 := strOne_le_length b hb
    have h2 : ("/" : String).length = 1 := by decide
    omega

/-- Joining a nonempty base onto a nonempty url strictly lengthens it,
provided the base is not exactly `/`. -/
theorem joinBaseURL_length_lt (b v : String) (hb : b ≠ "") (hv : v ≠ "")
    (hb2 : jsEndsWith b "/" = true → 2 ≤ b.length) :
    v.length < (joinBaseURL b v).length := by
  have h2 := joinBase_two_le_length b hb hb2
  have hv1 := strOne_le_length v hv
  rw [joinBaseURL, String.length_append]
  by_cases hsw : jsStartsWith v "/" = true
  · rw [if_pos hsw, strLength_drop]
    omega
  · rw [if_neg hsw]
    omega

/-- The joined url is nonempty when the base is. -/
theorem joinBaseURL_ne_empty (b v : String) (hb : b ≠ "") :
    joinBaseURL b v ≠ "" := by
  apply strNe_empty_of_length
  rw [joinBaseURL, String.length_append]
  have := joinBase_one_le_length b hb
  omega

/-- C1 (counterexample): `baseURL = "http://a"` with a url that already
starts with the base.  The claim says such a url is left unchanged; the
code prefixes the base again, producing a different url. -/
theorem applyGlobalConfig_absolute_url_cex :
    jsStartsWith "http://a/x" "http://a" = true ∧
    (applyGlobalConfig ⟨"http://a", [], 0⟩
        ⟨"get", "http://a/x", [], none, none, 0⟩).url = "http://a/http://a/x" ∧
    ("http://a/http://a/x" : String) ≠ "http://a/x" :=
  ⟨by decide, by decide, by decide⟩

/-- C1 (amended): whenever the global `baseURL` and the config's `url`
are both nonempty, the dispatched url equals `baseURL` (trailing `/`
appended unless already present) concatenated with `url` (one leading `/`
stripped) — unconditionally, with no exemption for urls that already
start with `baseURL`. -/
theorem applyGlobalConfig_joins_always (g : GlobalConfig) (c : RequestConfig)
    (hb : g.baseURL ≠ "") (hu : c.url ≠ "") :
    (applyGlobalConfig g c).url = joinBaseURL g.baseURL c.url := by
  rw [applyGlobalConfig_url, if_pos ⟨hb, hu⟩]

/-- Witness for `applyGlobalConfig_joins_always` at a concrete input. -/
theorem applyGlobalConfig_joins_always_witness :
    ("http://a" : String) ≠ "" ∧ ("/x" : String) ≠ "" ∧
    (applyGlobalConfig ⟨"http://a", [], 0⟩ ⟨"get", "/x", [], none, none, 0⟩).url
      = joinBaseURL "http://a" "/x" :=
  ⟨by decide, by decide,
    applyGlobalConfig_joins_always ⟨"http://a", [], 0⟩ ⟨"get", "/x", [], none, none, 0⟩
      (by decide) (by decide)⟩

/-- C2 (counterexample): stored headers `{a: "1"}`, partial with headers
`{b: "2"}`.  The claim says key `a` survives the merge; after
`setGlobalConfig` the stored headers no longer contain `a` at all. -/
theorem setGlobalConfig_headers_dropped_cex :
    hLookup (setGlobalConfig ⟨"", [("a", "1")], 0⟩
        ⟨none, some [("b", "2")], none⟩).headers "a" = none ∧
    hLookup [("a", "1")] "a" = some "1" :=
  ⟨by decide, by decide⟩

/-- C2 (amended): `setGlobalConfig` merges at the top level only.  Each
field present in the partial replaces the stored field; absent fields are
untouched; but a present `headers` object replaces the stored headers
wholesale — every lookup afterwards sees exactly the new object, so
stored header keys absent from it do not survive. -/
theorem setGlobalConfig_top_level_merge (g : GlobalConfig) (p : PartialConfig) :
    ((p.baseURL = none → (setGlobalConfig g p).baseURL = g.baseURL) ∧
      ∀ b, p.baseURL = some b → (setGlobalConfig g p).baseURL = b) ∧
    ((p.timeout = none → (setGlobalConfig g p).timeout = g.timeout) ∧
      ∀ t, p.timeout = some t → (setGlobalConfig g p).timeout = t) ∧
    ((p.headers = none → (setGlobalConfig g p).headers = g.headers) ∧
      ∀ hs, p.headers = some hs →
        ∀ k, hLookup (setGlobalConfig g p).headers k = hLookup hs k) := by
  refine ⟨⟨fun h => ?_, fun b h => ?_⟩, ⟨fun h => ?_, fun t h => ?_⟩,
    ⟨fun h => ?_, fun hs h k => ?_⟩⟩ <;>
    simp [setGlobalConfig, h]

/-- Witness for `setGlobalConfig_top_level_merge` at a concrete input. -/
theorem setGlobalConfig_top_level_merge_witness :
    (some [("b", "2")] = some [("b", "2")] : Prop) ∧
    hLookup (setGlobalConfig ⟨"", [("a", "1")], 0⟩
        ⟨none, some [("b", "2")], none⟩).headers "a" = hLookup [("b", "2")] "a" :=
  ⟨rfl, (setGlobalConfig_top_level_merge ⟨"", [("a", "1")], 0⟩
    ⟨none, some [("b", "2")], none⟩).2.2.2 [("b", "2")] rfl "a"⟩

/-- C9 (counterexample): with global `baseURL = "/"` (nonempty) and the
relative url `"x"`, applying the merge a second time to the
already-merged config leaves its url unchanged, so the retried attempt's
url does NOT differ from the first attempt's. -/
theorem applyGlobalConfig_root_base_cex :
    (("/" : String) ≠ "") ∧ jsStartsWith "x" "/" = false ∧
    (applyGlobalConfig ⟨"/", [], 0⟩
        (applyGlobalConfig ⟨"/", [], 0⟩ ⟨"get", "x", [], none, none, 0⟩)).url
      = (applyGlobalConfig ⟨"/", [], 0⟩ ⟨"get", "x", [], none, none, 0⟩).url :=
  ⟨by decide, by decide, by decide⟩

/-- C9 (amended): the merge is applied to the same (mutated) config
object on every attempt, so re-applying it re-joins the base onto the
already-joined url; unless the base is exactly `/` (operationally: it
ends with `/` while having fewer than two characters), the re-joined url
is strictly longer, hence differs; and a retry call with `maxCount = 2`
whose first attempt fails dispatches exactly these two urls. -/
theorem applyGlobalConfig_not_idempotent (g : GlobalConfig) (c : RequestConfig)
    (hb : g.baseURL ≠ "") (hu : c.url ≠ "")
    (hb2 : jsEndsWith g.baseURL "/" = true → 2 ≤ g.baseURL.length) :
    (applyGlobalConfig g (applyGlobalConfig g c)).url
      = joinBaseURL g.baseURL (applyGlobalConfig g c).url ∧
    (applyGlobalConfig g (applyGlobalConfig g c)).url
      ≠ (applyGlobalConfig g c).url ∧
    ∀ (tr : RequestConfig → Except Err Resp) (er : Err),
      tr (applyGlobalConfig g c) = .error er →
      (retryMakeRequest (fun _ => ⟨tr, g⟩) 2 c).attempts
        = [applyGlobalConfig g c, applyGlobalConfig g (applyGlobalConfig g c)] := by
  have hfirst : (applyGlobalConfig g c).url = joinBaseURL g.baseURL c.url := by
    rw [applyGlobalConfig_url, if_pos ⟨hb, hu⟩]
  have hfne : (applyGlobalConfig g c).url ≠ "" := by
    rw [hfirst]
    exact joinBaseURL_ne_empty g.baseURL c.url hb
  have hsecond : (applyGlobalConfig g (applyGlobalConfig g c)).url
      = joinBaseURL g.baseURL (applyGlobalConfig g c).url := by
    rw [applyGlobalConfig_url, if_pos ⟨hb, hfne⟩]
  refine ⟨hsecond, ?_, ?_⟩
  · rw [hsecond]
    intro heq
    have hlt := joinBaseURL_length_lt g.baseURL (applyGlobalConfig g c).url hb hfne hb2
    rw [heq] at hlt
    omega
  · intro tr er htr
    rw [retryMakeRequest, retryLoop, dif_pos (by norm_num : ((0 : Nat) : Int) < 2)]
    simp only [proxyDispatch, htr]
    rw [if_neg (by norm_num)]
    rw [retryLoop, dif_pos (by norm_num : ((1 : Nat) : Int) < 2)]
    simp only [proxyDispatch]
    cases htr2 : tr (applyGlobalConfig g (applyGlobalConfig g c)) <;> simp [htr2]

/-- Witness for `applyGlobalConfig_not_idempotent` at a concrete input. -/
theorem applyGlobalConfig_not_idempotent_witness :
    (("/api" : String) ≠ "") ∧ (("x" : String) ≠ "") ∧
    (applyGlobalConfig ⟨"/api", [], 0⟩
        (applyGlobalConfig ⟨"/api", [], 0⟩ ⟨"get", "x", [], none, none, 0⟩)).url
      ≠ (applyGlobalConfig ⟨"/api", [], 0⟩ ⟨"get", "x", [], none, none, 0⟩).url :=
  ⟨by decide, by decide,
    (applyGlobalConfig_not_idempotent ⟨"/api", [], 0⟩ ⟨"get", "x", [], none, none, 0⟩
      (by decide) (by decide) (by intro h; decide)).2.1⟩


/-- C3: each attempt of one retry call dispatches through the state
current at that attempt.  If the environment at attempt 0 (transport and
global config) makes the first dispatch fail, and the environment at
attempt 1 differs, the second attempt is dispatched through attempt 1's
transport with attempt 1's configuration merge — so a swap between
attempts is observed. -/
theorem retry_attempt_uses_current_env (env : Nat → Env) (e0 e1 : Env) (m : Int)
    (c : RequestConfig) (r : Resp) (er : Err) (hm : 2 ≤ m)
    (henv0 : env 0 = e0) (henv1 : env 1 = e1)
    (h0 : e0.transport (applyGlobalConfig e0.gconfig c) = .error er)
    (h1 : e1.transport (applyGlobalConfig e1.gconfig (applyGlobalConfig e0.gconfig c))
      = .ok r) :
    (retryMakeRequest env m c).outcome = .ok r ∧
    (retryMakeRequest env m c).attempts
      = [applyGlobalConfig e0.gconfig c,
         applyGlobalConfig e1.gconfig (applyGlobalConfig e0.gconfig c)] := by
  rw [retryMakeRequest, retryLoop, dif_pos (by omega : ((0 : Nat) : Int) < m)]
  simp only [proxyDispatch, henv0, h0]
  rw [if_neg (by omega)]
  norm_num
  rw [retryLoop, dif_pos (by omega : ((1 : Nat) : Int) < m)]
  simp [proxyDispatch, henv1, h1]

/-- Witness for `retry_attempt_uses_current_env` at a concrete input:
transport A always fails, transport B always succeeds, swapped between
the two attempts. -/
theorem retry_attempt_uses_current_env_witness :
    (2 : Int) ≤ 2 ∧
    (retryMakeRequest
        (fun i => if i = 0 then ⟨fun _ => .error "down", ⟨"", [], 0⟩⟩
                  else ⟨fun _ => .ok ⟨.str "v", 200⟩, ⟨"", [], 0⟩⟩)
        2 ⟨"get", "/x", [], none, none, 0⟩).outcome = .ok ⟨.str "v", 200⟩ :=
  ⟨le_refl 2,
    (retry_attempt_uses_current_env
      (fun i => if i = 0 then ⟨fun _ => .error "down", ⟨"", [], 0⟩⟩
                else ⟨fun _ => .ok ⟨.str "v", 200⟩, ⟨"", [], 0⟩⟩)
      ⟨fun _ => .error "down", ⟨"", [], 0⟩⟩
      ⟨fun _ => .ok ⟨.str "v", 200⟩, ⟨"", [], 0⟩⟩
      2 ⟨"get", "/x", [], none, none, 0⟩ ⟨.str "v", 200⟩ "down"
      (le_refl 2) rfl rfl rfl rfl).1⟩


/-- Behaviour of the retry loop from counter `count` against transports
that always fail: the final error is that of the last attempt, one
attempt per remaining counter value, and one backoff wait of `1000 * k`
ms before the retry at counter `k`. -/
theorem retryLoop_all_fail (env : Nat → Env) (errs : Nat → Err) (n : Int)
    (count : Nat) (c : RequestConfig)
    (hfail : ∀ (i : Nat) (c' : RequestConfig), (env i).transport c' = .error (errs i))
    (hcount : (count : Int) < n) :
    (retryLoop env n count c).outcome = .err (errs ((n - 1).toNat)) ∧
    ((retryLoop env n count c).attempts.length : Int) = n - count ∧
    (retryLoop env n count c).waits
      = (List.range' (count + 1) ((n - 1 - count).toNat)).map
          (fun (k : Nat) => (1000 : Int) * k) := by
  rw [retryLoop, dif_pos hcount]
  simp only [proxyDispatch, hfail]
  by_cases hend : ((count : Int) + 1) ≥ n
  · rw [if_pos hend]
    have hc : (n - 1).toNat = count := by omega
    have hz : (n - 1 - count).toNat = 0 := by omega
    rw [hc, hz]
    refine ⟨rfl, ?_, by simp⟩
    simp only [List.length_singleton]
    omega
  · rw [if_neg hend]
    have ih := retryLoop_all_fail env errs n (count + 1)
      (applyGlobalConfig (env count).gconfig c) hfail (by omega)
    refine ⟨ih.1, ?_, ?_⟩
    · have h2 := ih.2.1
      simp only [List.length_cons]
      push_cast at h2 ⊢
      omega
    · have hr : (n - 1 - count).toNat = ((n - 1 - (count + 1 : Nat)).toNat) + 1 := by
        push_cast
        omega
      rw [hr, List.range'_succ, List.map_cons]
      simp only [ih.2.2]
      push_cast
      constructor
termination_by (n - count).toNat
decreasing_by
  omega

/-- Behaviour of the retry loop from counter `count` when every attempt
before the last fails and the last attempt succeeds. -/
theorem retryLoop_fail_then_ok (env : Nat → Env) (errs : Nat → Err) (r : Resp)
    (n : Int) (count : Nat) (c : RequestConfig)
    (hfail : ∀ (i : Nat) (c' : RequestConfig), (i : Int) < n - 1 →
      (env i).transport c' = .error (errs i))
    (hsucc : ∀ c', (env ((n - 1).toNat)).transport c' = .ok r)
    (hcount : (count : Int) < n) :
    (retryLoop env n count c).outcome = .ok r ∧
    ((retryLoop env n count c).attempts.length : Int) = n - count ∧
    (retryLoop env n count c).waits
      = (List.range' (count + 1) ((n - 1 - count).toNat)).map
          (fun (k : Nat) => (1000 : Int) * k) := by
  rw [retryLoop, dif_pos hcount]
  by_cases hlast : (count : Int) < n - 1
  · simp only [proxyDispatch, hfail count _ hlast]
    rw [if_neg (by omega)]
    have ih := retryLoop_fail_then_ok env errs r n (count + 1)
      (applyGlobalConfig (env count).gconfig c) hfail hsucc (by omega)
    refine ⟨ih.1, ?_, ?_⟩
    · have h2 := ih.2.1
      simp only [List.length_cons]
      push_cast at h2 ⊢
      omega
    · have hr : (n - 1 - count).toNat = ((n - 1 - (count + 1 : Nat)).toNat) + 1 := by
        push_cast
        omega
      rw [hr, List.range'_succ, List.map_cons]
      simp only [ih.2.2]
      push_cast
      constructor
  · have hc : count = (n - 1).toNat := by omega
    subst hc
    simp only [proxyDispatch, hsucc]
    have hz : (n - 1 - (((n - 1).toNat : Nat) : Int)).toNat = 0 := by omega
    rw [hz]
    refine ⟨trivial, ?_, by simp⟩
    simp only [List.length_singleton]
    omega
termination_by (n - count).toNat
decreasing_by
  omega

/-- C4: for `maxAttempts = n ≥ 1`.  First half: if the transport fails on
every attempt before the last and succeeds on the last, the call resolves
with the success value after exactly `n` dispatch attempts.  Second half:
if the transport always fails, the call rejects with the final attempt's
error after exactly `n` dispatch attempts.  In both cases the backoff
waits inserted before the retries are `1000 * 1, …, 1000 * (n-1)` ms —
1000 ms times the current failure count. -/
theorem retry_resolution_and_attempt_count (env : Nat → Env) (errs : Nat → Err)
    (r : Resp) (n : Nat) (c : RequestConfig) (hn : 1 ≤ n) :
    ((∀ (i : Nat) (c' : RequestConfig), i < n - 1 →
        (env i).transport c' = .error (errs i)) →
      (∀ c', (env (n - 1)).transport c' = .ok r) →
      (retryMakeRequest env (n : Int) c).outcome = .ok r ∧
      (retryMakeRequest env (n : Int) c).attempts.length = n ∧
      (retryMakeRequest env (n : Int) c).waits
        = (List.range' 1 (n - 1)).map (fun (k : Nat) => (1000 : Int) * k)) ∧
    ((∀ (i : Nat) (c' : RequestConfig), (env i).transport c' = .error (errs i)) →
      (retryMakeRequest env (n : Int) c).outcome = .err (errs (n - 1)) ∧
      (retryMakeRequest env (n : Int) c).attempts.length = n ∧
      (retryMakeRequest env (n : Int) c).waits
        = (List.range' 1 (n - 1)).map (fun (k : Nat) => (1000 : Int) * k)) := by
  have hto : ((n : Int) - 1).toNat = n - 1 := by omega
  have hr0 : ((n : Int) - 1 - ((0 : Nat) : Int)).toNat = n - 1 := by omega
  constructor
  · intro hfail hsucc
    have h := retryLoop_fail_then_ok env errs r (n : Int) 0 c
      (fun i c' hi => hfail i c' (by omega))
      (by rw [hto]; exact hsucc)
      (by omega)
    unfold retryMakeRequest
    refine ⟨h.1, by have := h.2.1; omega, ?_⟩
    rw [h.2.2]
    norm_num [hr0]
  · intro hfail
    have h := retryLoop_all_fail env errs (n : Int) 0 c hfail (by omega)
    unfold retryMakeRequest
    refine ⟨by rw [h.1, hto], by have := h.2.1; omega, ?_⟩
    rw [h.2.2]
    norm_num [hr0]

/-- Witness for `retry_resolution_and_attempt_count` at `n = 3` with an
always-failing transport. -/
theorem retry_resolution_and_attempt_count_witness :
    1 ≤ 3 ∧
    (retryMakeRequest (fun _ => ⟨fun _ => .error "boom", ⟨"", [], 0⟩⟩) (3 : Int)
        ⟨"get", "/x", [], none, none, 0⟩).outcome = .err "boom" ∧
    (retryMakeRequest (fun _ => ⟨fun _ => .error "boom", ⟨"", [], 0⟩⟩) (3 : Int)
        ⟨"get", "/x", [], none, none, 0⟩).attempts.length = 3 ∧
    (retryMakeRequest (fun _ => ⟨fun _ => .error "boom", ⟨"", [], 0⟩⟩) (3 : Int)
        ⟨"get", "/x", [], none, none, 0⟩).waits
      = [(1000 : Int), 2000] := by
  refine ⟨by omega, ?_⟩
  have h := (retry_resolution_and_attempt_count
    (fun _ => ⟨fun _ => .error "boom", ⟨"", [], 0⟩⟩) (fun _ => "boom")
    ⟨.null, 0⟩ 3 ⟨"get", "/x", [], none, none, 0⟩ (by omega)).2
    (fun _ _ => rfl)
  norm_num at h
  refine ⟨h.1, h.2.1, ?_⟩
  rw [h.2.2]
  decide

/-- C8: with `maxAttempts ≤ 0` the retry loop body never runs — the call
never dispatches to the transport (no attempts, no waits) and resolves
with `undefined`. -/
theorem retry_nonpositive_never_dispatches (env : Nat → Env) (m : Int)
    (hm : m ≤ 0) (c : RequestConfig) :
    (retryMakeRequest env m c).attempts = [] ∧
    (retryMakeRequest env m c).outcome = .undef ∧
    (retryMakeRequest env m c).waits = [] := by
  rw [retryMakeRequest, retryLoop, dif_neg (by omega)]
  exact ⟨rfl, rfl, rfl⟩

/-- Witness for `retry_nonpositive_never_dispatches` at `maxAttempts = 0`. -/
theorem retry_nonpositive_never_dispatches_witness :
    (0 : Int) ≤ 0 ∧
    (retryMakeRequest (fun _ => ⟨fun _ => .ok ⟨.null, 200⟩, ⟨"", [], 0⟩⟩) 0
        ⟨"get", "/x", [], none, none, 0⟩).outcome = .undef :=
  ⟨le_refl 0,
    (retry_nonpositive_never_dispatches
      (fun _ => ⟨fun _ => .ok ⟨.null, 200⟩, ⟨"", [], 0⟩⟩) 0 (le_refl 0)
      ⟨"get", "/x", [], none, none, 0⟩).2.1⟩

/-- The state reached by a run of `pEnqNoInject` calls over the enqueue
history `l`: the first `maxParallel` calls were dequeued, counted and
rejected by the `useRequestor()` throw; the rest sit in the queue. -/
def stateNoInject (maxParallel : Nat) (l : List Nat) : PState :=
  { queue := l.drop maxParallel, running := min l.length maxParallel,
    inFlight := [], enqueued := l, admitted := [], settled := [],
    rejected := l.take maxParallel }

/-- One no-transport call moves `stateNoInject l` to
`stateNoInject (l ++ [t])`. -/
theorem pEnqNoInject_state (maxParallel : Nat) (l : List Nat) (t : Nat) :
    pEnqNoInject maxParallel (stateNoInject maxParallel l) t
      = stateNoInject maxParallel (l ++ [t]) := by
  unfold pEnqNoInject stateNoInject
  by_cases hlt : l.length < maxParallel
  · have hdrop : l.drop maxParallel = [] := List.drop_eq_nil_of_le (by omega)
    have hdrop2 : (l ++ [t]).drop maxParallel = [] :=
      List.drop_eq_nil_of_le (by simp; omega)
    have htake : l.take maxParallel = l := List.take_of_length_le (by omega)
    have htake2 : (l ++ [t]).take maxParallel = l ++ [t] :=
      List.take_of_length_le (by simp; omega)
    simp only [hdrop, List.nil_append, hdrop2, htake, htake2]
    rw [if_pos (by simpa using hlt)]
    simp
    omega
  · have hq : l.drop maxParallel ++ [t] = (l ++ [t]).drop maxParallel := by
      rw [List.drop_append_of_le_length (by omega)]
    have ht : l.take maxParallel = (l ++ [t]).take maxParallel := by
      rw [List.take_append_of_le_length (by omega)]
    cases hd : l.drop maxParallel ++ [t] with
    | nil => simp at hd
    | cons x rest =>
      simp only [hd]
      rw [if_neg (by simp; omega)]
      simp only [← hd, hq, ht]
      simp
      omega

/-- A run of no-transport calls from the fresh state lands in
`stateNoInject` of the full call history. -/
theorem pRunNoInject_spec (maxParallel : Nat) (ts : List Nat) :
    pRunNoInject maxParallel ts = stateNoInject maxParallel ts := by
  have key : ∀ (us : List Nat) (l : List Nat),
      us.foldl (pEnqNoInject maxParallel) (stateNoInject maxParallel l)
        = stateNoInject maxParallel (l ++ us) := by
    intro us
    induction us with
    | nil => intro l; simp
    | cons u us ih =>
      intro l
      rw [List.foldl_cons, pEnqNoInject_state, ih]
      simp
  have hinit : pInit = stateNoInject maxParallel [] := by
    simp [pInit, stateNoInject]
  rw [pRunNoInject, hinit, key]
  simp

/-- C10: calls made through the bounded-concurrency decorator while no
transport is injected.  Each of the first `maxParallel` calls is counted,
dequeued and rejected with the not-injected error, and the running count
— never decremented — sticks at `min (number of calls) maxParallel`; once
it reaches `maxParallel`, every later call stays in the queue, nothing is
ever in flight and no settlement ever happens, so those calls' promises
never settle. -/
theorem parallel_noinject_starvation (maxParallel : Nat) (_hmax : 1 ≤ maxParallel)
    (ts : List Nat) :
    (pRunNoInject maxParallel ts).rejected = ts.take maxParallel ∧
    (pRunNoInject maxParallel ts).running = min ts.length maxParallel ∧
    (pRunNoInject maxParallel ts).queue = ts.drop maxParallel ∧
    (pRunNoInject maxParallel ts).settled = [] ∧
    (pRunNoInject maxParallel ts).inFlight = [] := by
  rw [pRunNoInject_spec]
  exact ⟨rfl, rfl, rfl, rfl, rfl⟩

/-- Witness for `parallel_noinject_starvation`: capacity 2, three calls —
the first two are rejected, the third is stuck in the queue. -/
theorem parallel_noinject_starvation_witness :
    1 ≤ 2 ∧
    (pRunNoInject 2 [1, 2, 3]).rejected = [1, 2] ∧
    (pRunNoInject 2 [1, 2, 3]).running = 2 ∧
    (pRunNoInject 2 [1, 2, 3]).queue = [3] ∧
    (pRunNoInject 2 [1, 2, 3]).settled = [] := by
  have h := parallel_noinject_starvation 2 (by omega) [1, 2, 3]
  exact ⟨by omega, h.1.trans (by decide), h.2.1.trans (by decide),
    h.2.2.1.trans (by decide), h.2.2.2.1⟩

/-- The inductive invariant of one bounded-concurrency decorator
instance: the running count equals the number of unsettled dispatches,
it never exceeds the capacity, and the enqueue history is exactly the
admission history followed by the still-pending queue (strict FIFO). -/
def pInv (maxParallel : Nat) (s : PState) : Prop :=
  s.running = s.inFlight.length ∧ s.running ≤ maxParallel ∧
    s.enqueued = s.admitted ++ s.queue

/-- `processQueue` preserves the invariant. -/
theorem processQueue_inv (maxParallel : Nat) (s : PState)
    (h : pInv maxParallel s) : pInv maxParallel (processQueue maxParallel s) := by
  obtain ⟨h1, h2, h3⟩ := h
  unfold processQueue
  split
  · exact ⟨h1, h2, h3⟩
  · rename_i t rest hq
    by_cases hr : s.running < maxParallel
    · rw [if_pos hr]
      refine ⟨by simp [h1], by show s.running + 1 ≤ maxParallel; omega, ?_⟩
      show s.enqueued = (s.admitted ++ [t]) ++ rest
      rw [h3, hq]
      simp
    · rw [if_neg hr]
      exact ⟨h1, h2, h3⟩

/-- Every event step preserves the invariant. -/
theorem pStep_inv (maxParallel : Nat) (s : PState) (e : PEvent)
    (h : pInv maxParallel s) : pInv maxParallel (pStep maxParallel s e) := by
  obtain ⟨h1, h2, h3⟩ := h
  cases e with
  | enq t =>
    apply processQueue_inv
    exact ⟨h1, h2, by simp [h3]⟩
  | settle t success =>
    show pInv maxParallel
      (if t ∈ s.inFlight then
        processQueue maxParallel
          { s with inFlight := s.inFlight.erase t,
                   settled := s.settled ++ [(t, success)],
                   running := s.running - 1 }
      else s)
    by_cases ht : t ∈ s.inFlight
    · rw [if_pos ht]
      apply processQueue_inv
      have hlen : (s.inFlight.erase t).length = s.inFlight.length - 1 :=
        List.length_erase_of_mem ht
      have hpos : 1 ≤ s.inFlight.length := List.length_pos.mpr (by
        intro hnil
        rw [hnil] at ht
        simp at ht)
      exact ⟨by simp [hlen, h1], by show s.running - 1 ≤ maxParallel; omega, h3⟩
    · rw [if_neg ht]
      exact ⟨h1, h2, h3⟩

/-- Every reachable state of a run satisfies the invariant. -/
theorem pRun_inv (maxParallel : Nat) (es : List PEvent) :
    pInv maxParallel (pRun maxParallel es) := by
  have key : ∀ (fs : List PEvent) (s : PState), pInv maxParallel s →
      pInv maxParallel (fs.foldl (pStep maxParallel) s) := by
    intro fs
    induction fs with
    | nil => intro s hs; exact hs
    | cons f fs ih =>
      intro s hs
      rw [List.foldl_cons]
      exact ih _ (pStep_inv maxParallel s f hs)
  exact key es pInit ⟨rfl, by simp [pInit], rfl⟩

/-- When the queue head is `h` and a slot is free, `processQueue` admits
exactly `h`. -/
theorem processQueue_admits (maxParallel : Nat) (s : PState) (h : Nat)
    (rest : List Nat) (hq : s.queue = h :: rest)
    (hr : s.running < maxParallel) :
    processQueue maxParallel s
      = { s with queue := rest, running := s.running + 1,
                 inFlight := s.inFlight ++ [h],
                 admitted := s.admitted ++ [h] } := by
  unfold processQueue
  split
  · rename_i hnil
    rw [hq] at hnil
    cases hnil
  · rename_i t' rest' heq
    rw [hq] at heq
    injection heq with e1 e2
    subst e1
    subst e2
    rw [if_pos hr]

/-- Settling an in-flight dispatch: the caller's promise settles, the
count drops, and the queue is processed. -/
theorem pStep_settle (maxParallel : Nat) (s : PState) (t : Nat) (success : Bool)
    (ht : t ∈ s.inFlight) :
    pStep maxParallel s (.settle t success)
      = processQueue maxParallel
          { s with inFlight := s.inFlight.erase t,
                   settled := s.settled ++ [(t, success)],
                   running := s.running - 1 } := by
  show (if t ∈ s.inFlight then
      processQueue maxParallel
        { s with inFlight := s.inFlight.erase t,
                 settled := s.settled ++ [(t, success)],
                 running := s.running - 1 }
    else s) = _
  rw [if_pos ht]

/-- C5: along every event sequence against one bounded-concurrency
decorator instance with an injected transport, (a) at most `maxParallel`
dispatches are unsettled simultaneously, (b) the enqueue history is the
admission history followed by the pending queue — admission is strictly
FIFO by enqueue order — and (c) when an in-flight dispatch fails, its own
promise is rejected and the head of the queue is admitted in the same
step: a failure does not block the queue. -/
theorem parallel_bounded_fifo (maxParallel : Nat) (_hmax : 1 ≤ maxParallel)
    (es : List PEvent) :
    (pRun maxParallel es).inFlight.length ≤ maxParallel ∧
    (pRun maxParallel es).enqueued
      = (pRun maxParallel es).admitted ++ (pRun maxParallel es).queue ∧
    (∀ t h rest, (pRun maxParallel es).queue = h :: rest →
      t ∈ (pRun maxParallel es).inFlight →
      (pStep maxParallel (pRun maxParallel es) (.settle t false)).settled
        = (pRun maxParallel es).settled ++ [(t, false)] ∧
      (pStep maxParallel (pRun maxParallel es) (.settle t false)).admitted
        = (pRun maxParallel es).admitted ++ [h]) := by
  obtain ⟨h1, h2, h3⟩ := pRun_inv maxParallel es
  refine ⟨by omega, h3, ?_⟩
  intro t h rest hq ht
  have hpos : 1 ≤ (pRun maxParallel es).inFlight.length :=
    List.length_pos.mpr (by
      intro hnil
      rw [hnil] at ht
      simp at ht)
  rw [pStep_settle maxParallel (pRun maxParallel es) t false ht]
  rw [processQueue_admits maxParallel
    { pRun maxParallel es with
        inFlight := (pRun maxParallel es).inFlight.erase t,
        settled := (pRun maxParallel es).settled ++ [(t, false)],
        running := (pRun maxParallel es).running - 1 }
    h rest hq
    (by show (pRun maxParallel es).running - 1 < maxParallel; omega)]
  exact ⟨rfl, rfl⟩

/-- Witness for `parallel_bounded_fifo`: capacity 2, five simultaneous
calls; calls 1 and 2 are dispatched, 3–5 queue up; when call 1 fails its
promise is rejected and call 3 — the queue head — is admitted. -/
theorem parallel_bounded_fifo_witness :
    1 ≤ 2 ∧
    (pRun 2 [.enq 1, .enq 2, .enq 3, .enq 4, .enq 5]).queue = 3 :: [4, 5] ∧
    1 ∈ (pRun 2 [.enq 1, .enq 2, .enq 3, .enq 4, .enq 5]).inFlight ∧
    (pStep 2 (pRun 2 [.enq 1, .enq 2, .enq 3, .enq 4, .enq 5])
        (.settle 1 false)).settled
      = (pRun 2 [.enq 1, .enq 2, .enq 3, .enq 4, .enq 5]).settled ++ [(1, false)] ∧
    (pStep 2 (pRun 2 [.enq 1, .enq 2, .enq 3, .enq 4, .enq 5])
        (.settle 1 false)).admitted
      = (pRun 2 [.enq 1, .enq 2, .enq 3, .enq 4, .enq 5]).admitted ++ [3] := by
  have h := (parallel_bounded_fifo 2 (by omega)
    [.enq 1, .enq 2, .enq 3, .enq 4, .enq 5]).2.2 1 3 [4, 5]
    (by decide) (by decide)
  exact ⟨by omega, by decide, by decide, h.1, h.2⟩

/-- `find?` over a list whose entry under `k` was replaced finds the
replacement. -/
theorem find?_replace_self (k : String) (v : CacheEntry) :
    ∀ (s : Store), s.any (fun p => p.1 == k) = true →
      (s.map (fun p => if p.1 == k then (k, v) else p)).find?
        (fun p => p.1 == k) = some (k, v) := by
  intro s
  induction s with
  | nil => intro h; simp at h
  | cons hd tl ih =>
    intro h
    simp only [List.map_cons]
    by_cases hk : (hd.1 == k) = true
    · rw [if_pos hk]
      exact List.find?_cons_of_pos _ (by simp)
    · rw [if_neg hk]
      have hk2 : (hd.1 == k) = false := by simpa using hk
      simp only [List.find?_cons_of_neg, hk2, Bool.false_eq_true, not_false_eq_true]
      apply ih
      simp only [List.any_cons, hk2, Bool.false_or] at h
      exact h

/-- `find?` over a list without the key, extended by `(k, v)` at the end,
finds `(k, v)`. -/
theorem find?_append_absent (k : String) (v : CacheEntry) :
    ∀ (s : Store), s.any (fun p => p.1 == k) = false →
      (s ++ [(k, v)]).find? (fun p => p.1 == k) = some (k, v) := by
  intro s
  induction s with
  | nil =>
    intro _
    simp
  | cons hd tl ih =>
    intro h
    simp only [List.any_cons, Bool.or_eq_false_iff] at h
    simp only [List.cons_append, List.find?_cons_of_neg, h.1, Bool.false_eq_true,
      not_false_eq_true]
    exact ih h.2

/-- `store.get` after `store.set` under the same key returns the new
value (both when the key was present — replacement — and when it was
absent — append). -/
theorem storeGet_set_self (s : Store) (k : String) (v : CacheEntry) :
    storeGet (storeSet s k v) k = some v := by
  unfold storeGet storeSet
  by_cases h : s.any (fun p => p.1 == k) = true
  · rw [if_pos h, find?_replace_self k v s h]
    rfl
  · rw [if_neg h, find?_append_absent k v s (Bool.eq_false_iff.mpr h)]
    rfl

/-- `store.has` agrees with `store.get`. -/
theorem storeHas_eq_isSome (s : Store) (k : String) :
    storeHas s k = (storeGet s k).isSome := by
  unfold storeHas storeGet
  cases s.find? (fun p => p.1 == k) <;> rfl

/-- C6: the cache decorator's per-call policy.  (a) On a missing key the
call dispatches and stores `{data, timestamp}` under the key.  (b) With
the default TTL check, a call while `now - timestamp < duration` returns
the stored data without dispatching and leaves the store unchanged.
(c) Likewise when a supplied `isValid` returns true.  (d) With the
default check, a call once the duration has elapsed dispatches again and
overwrites the entry.  (e) Likewise when `isValid` returns false. -/
theorem cache_hit_miss_policy (opts : NormalizedCacheOptions) (env : Env)
    (now nowStore : Int) (store : Store) (c : RequestConfig) (r : Resp)
    (entry : CacheEntry) :
    (storeHas store (opts.key c) = false →
      env.transport (applyGlobalConfig env.gconfig c) = .ok r →
      (cacheMakeRequest opts env now nowStore store c).dispatched = true ∧
      (cacheMakeRequest opts env now nowStore store c).result = .ok r ∧
      storeGet (cacheMakeRequest opts env now nowStore store c).store (opts.key c)
        = some ⟨r, nowStore⟩) ∧
    (opts.isValid = none →
      storeGet store (opts.key c) = some entry →
      now - entry.timestamp < opts.duration →
      (cacheMakeRequest opts env now nowStore store c).dispatched = false ∧
      (cacheMakeRequest opts env now nowStore store c).result = .ok entry.data ∧
      (cacheMakeRequest opts env now nowStore store c).store = store) ∧
    (∀ f, opts.isValid = some f →
      storeGet store (opts.key c) = some entry →
      f (opts.key c) c entry = true →
      (cacheMakeRequest opts env now nowStore store c).dispatched = false ∧
      (cacheMakeRequest opts env now nowStore store c).result = .ok entry.data ∧
      (cacheMakeRequest opts env now nowStore store c).store = store) ∧
    (opts.isValid = none →
      storeGet store (opts.key c) = some entry →
      ¬(now - entry.timestamp < opts.duration) →
      env.transport (applyGlobalConfig env.gconfig c) = .ok r →
      (cacheMakeRequest opts env now nowStore store c).dispatched = true ∧
      storeGet (cacheMakeRequest opts env now nowStore store c).store (opts.key c)
        = some ⟨r, nowStore⟩) ∧
    (∀ f, opts.isValid = some f →
      storeGet store (opts.key c) = some entry →
      f (opts.key c) c entry = false →
      env.transport (applyGlobalConfig env.gconfig c) = .ok r →
      (cacheMakeRequest opts env now nowStore store c).dispatched = true ∧
      storeGet (cacheMakeRequest opts env now nowStore store c).store (opts.key c)
        = some ⟨r, nowStore⟩) := by
  refine ⟨?_, ?_, ?_, ?_, ?_⟩
  · intro hh ht
    have heq : cacheMakeRequest opts env now nowStore store c
        = ⟨.ok r, storeSet store (opts.key c) ⟨r, nowStore⟩, true⟩ := by
      unfold cacheMakeRequest
      simp only [hh, Bool.false_eq_true, if_false, proxyDispatch, ht]
    rw [heq]
    exact ⟨rfl, rfl, storeGet_set_self store (opts.key c) ⟨r, nowStore⟩⟩
  · intro hv hg hlt
    have hh : storeHas store (opts.key c) = true := by
      rw [storeHas_eq_isSome, hg]
      rfl
    have heq : cacheMakeRequest opts env now nowStore store c
        = ⟨.ok entry.data, store, false⟩ := by
      unfold cacheMakeRequest
      simp only [hh, if_true, hg, hv, decide_eq_true hlt]
    rw [heq]
    exact ⟨rfl, rfl, rfl⟩
  · intro f hv hg hf
    have hh : storeHas store (opts.key c) = true := by
      rw [storeHas_eq_isSome, hg]
      rfl
    have heq : cacheMakeRequest opts env now nowStore store c
        = ⟨.ok entry.data, store, false⟩ := by
      unfold cacheMakeRequest
      simp only [hh, if_true, hg, hv, hf]
    rw [heq]
    exact ⟨rfl, rfl, rfl⟩
  · intro hv hg hlt ht
    have hh : storeHas store (opts.key c) = true := by
      rw [storeHas_eq_isSome, hg]
      rfl
    have heq : cacheMakeRequest opts env now nowStore store c
        = ⟨.ok r, storeSet store (opts.key c) ⟨r, nowStore⟩, true⟩ := by
      unfold cacheMakeRequest
      simp only [hh, if_true, hg, hv, decide_eq_false hlt, Bool.false_eq_true,
        if_false, proxyDispatch, ht]
    rw [heq]
    exact ⟨rfl, storeGet_set_self store (opts.key c) ⟨r, nowStore⟩⟩
  · intro f hv hg hf ht
    have hh : storeHas store (opts.key c) = true := by
      rw [storeHas_eq_isSome, hg]
      rfl
    have heq : cacheMakeRequest opts env now nowStore store c
        = ⟨.ok r, storeSet store (opts.key c) ⟨r, nowStore⟩, true⟩ := by
      unfold cacheMakeRequest
      simp only [hh, if_true, hg, hv, hf, Bool.false_eq_true, if_false,
        proxyDispatch, ht]
    rw [heq]
    exact ⟨rfl, storeGet_set_self store (opts.key c) ⟨r, nowStore⟩⟩

/-- Concrete items for witnesses: all-defaults cache options, a constant
successful transport, a simple GET config and its response. -/
def cacheOptsW : NormalizedCacheOptions :=
  normalizeCacheOptions ⟨none, none, none, none⟩

def respW : Resp := ⟨.str "v", 200⟩

def envW : Env := ⟨fun _ => .ok respW, initialGlobalConfig⟩

def cW : RequestConfig := ⟨"get", "/a", [], none, none, 0⟩

/-- Witness for `cache_hit_miss_policy`: a first call on an empty store
dispatches and stores the result; a second call 5 ms later hits the
cache without dispatching. -/
theorem cache_hit_miss_policy_witness :
    storeHas [] (cacheOptsW.key cW) = false ∧
    (cacheMakeRequest cacheOptsW envW 0 5 [] cW).dispatched = true ∧
    storeGet (cacheMakeRequest cacheOptsW envW 0 5 [] cW).store (cacheOptsW.key cW)
      = some ⟨respW, 5⟩ ∧
    (cacheMakeRequest cacheOptsW envW 10 20
        (cacheMakeRequest cacheOptsW envW 0 5 [] cW).store cW).dispatched = false ∧
    (cacheMakeRequest cacheOptsW envW 10 20
        (cacheMakeRequest cacheOptsW envW 0 5 [] cW).store cW).result
      = .ok respW := by
  have h1 := (cache_hit_miss_policy cacheOptsW envW 0 5 [] cW respW
    ⟨respW, 5⟩).1 rfl rfl
  have h2 := (cache_hit_miss_policy cacheOptsW envW 10 20
      (cacheMakeRequest cacheOptsW envW 0 5 [] cW).store cW respW ⟨respW, 5⟩).2.1
    rfl h1.2.2 (by decide)
  exact ⟨rfl, h1.1, h1.2.2, h2.1, by rw [h2.2.1]⟩

/-- C7 (counterexample): two configs that differ in both `params` and
`data` — one carries the value as query params, the other as the body —
produce the SAME default idempotent key, because the key function pushes
the JSON encodings into one `"-"`-joined list without tagging which
field they came from. -/
theorem defaultIdempotentKey_collision_cex :
    (⟨"get", "u", [], some (.num 1), none, 0⟩ : RequestConfig).params
      ≠ (⟨"get", "u", [], none, some (.num 1), 0⟩ : RequestConfig).params ∧
    (⟨"get", "u", [], some (.num 1), none, 0⟩ : RequestConfig).data
      ≠ (⟨"get", "u", [], none, some (.num 1), 0⟩ : RequestConfig).data ∧
    defaultIdempotentKey ⟨"get", "u", [], some (.num 1), none, 0⟩
      = defaultIdempotentKey ⟨"get", "u", [], none, some (.num 1), 0⟩ := by
  refine ⟨by simp, by simp, ?_⟩
  rfl

/-- C7 (amended): two calls with identical method, url, params and body
produce the same default key, and a second call whose key is already
memoized within the one-hour duration reuses the stored result without a
fresh dispatch.  Calls that differ in one of the four fields are NOT
guaranteed distinct keys (see the counterexample: params vs body holding
the same value collide), so a differing call does not always trigger its
own dispatch. -/
theorem defaultIdempotentKey_same_fields (c1 c2 : RequestConfig)
    (hm : c1.method = c2.method) (hu : c1.url = c2.url)
    (hp : c1.params = c2.params) (hd : c1.data = c2.data) :
    defaultIdempotentKey c1 = defaultIdempotentKey c2 ∧
    ∀ (env : Env) (now nowStore : Int) (store : Store) (entry : CacheEntry),
      storeGet store (defaultIdempotentKey c1) = some entry →
      now - entry.timestamp < 1000 * 60 * 60 →
      (cacheMakeRequest (normalizeCacheOptions (idempotentCacheOptions none))
          env now nowStore store c2).dispatched = false ∧
      (cacheMakeRequest (normalizeCacheOptions (idempotentCacheOptions none))
          env now nowStore store c2).result = .ok entry.data := by
  have hkey : defaultIdempotentKey c1 = defaultIdempotentKey c2 := by
    unfold defaultIdempotentKey
    rw [hm, hu, hp, hd]
  refine ⟨hkey, ?_⟩
  intro env now nowStore store entry hg hlt
  have hkeq : (normalizeCacheOptions (idempotentCacheOptions none)).key c2
      = defaultIdempotentKey c1 := by
    show defaultIdempotentKey c2 = defaultIdempotentKey c1
    exact hkey.symm
  have hh : storeHas store (defaultIdempotentKey c1) = true := by
    rw [storeHas_eq_isSome, hg]
    rfl
  have hvnone : (normalizeCacheOptions (idempotentCacheOptions none)).isValid
      = none := rfl
  have hdur : (normalizeCacheOptions (idempotentCacheOptions none)).duration
      = 1000 * 60 * 60 := by decide
  have heq : cacheMakeRequest (normalizeCacheOptions (idempotentCacheOptions none))
      env now nowStore store c2 = ⟨.ok entry.data, store, false⟩ := by
    unfold cacheMakeRequest
    simp only [hkeq, hh, if_true, hg, hvnone, hdur, decide_eq_true hlt]
  rw [heq]
  exact ⟨rfl, rfl⟩

/-- Witness for `defaultIdempotentKey_same_fields`: a POST with a JSON
body, memoized at timestamp 0, re-requested at 10 ms — the second call
does not dispatch and returns the stored response. -/
theorem defaultIdempotentKey_same_fields_witness :
    (("post" : String) = "post") ∧
    storeGet [(defaultIdempotentKey
        ⟨"post", "/api/articles", [], none, some (.obj [("t", .str "hi")]), 0⟩,
        ⟨respW, 0⟩)]
      (defaultIdempotentKey
        ⟨"post", "/api/articles", [], none, some (.obj [("t", .str "hi")]), 0⟩)
      = some ⟨respW, 0⟩ ∧
    (cacheMakeRequest (normalizeCacheOptions (idempotentCacheOptions none)) envW 10 20
        [(defaultIdempotentKey
            ⟨"post", "/api/articles", [], none, some (.obj [("t", .str "hi")]), 0⟩,
          ⟨respW, 0⟩)]
        ⟨"post", "/api/articles", [], none, some (.obj [("t", .str "hi")]), 0⟩).dispatched
      = false := by
  have h := (defaultIdempotentKey_same_fields
    ⟨"post", "/api/articles", [], none, some (.obj [("t", .str "hi")]), 0⟩
    ⟨"post", "/api/articles", [], none, some (.obj [("t", .str "hi")]), 0⟩
    rfl rfl rfl rfl).2 envW 10 20
    [(defaultIdempotentKey
        ⟨"post", "/api/articles", [], none, some (.obj [("t", .str "hi")]), 0⟩,
      ⟨respW, 0⟩)]
    ⟨respW, 0⟩ rfl (by decide)
  exact ⟨rfl, rfl, h.1⟩
